import Mathlib

/- Shallow embedding of the multiplayer replication layer of the
WorldofWater4 repository: the remote-player replica (NetworkedPlayer,
src/networkedPlayer.js), its registry (NetworkedPlayerManager), the
broadcast throttle of the render loop (src/game.js), the procedural
ocean-height field (src/shipPawn.js and src/game.js), and the
quaternion slerp used for orientation interpolation
(NetworkedPlayer.interpolateEuler together with THREE r134
Quaternion.setFromEuler / Quaternion.slerp, which the code calls).
Machine floating-point numbers are modelled as rationals where the code
only adds, subtracts, multiplies, divides and compares, and as real
numbers where trigonometry is involved; transcendental primitives that
are only passed through unevaluated are taken as function parameters.
Wall-clock readings of Date.now() are threaded through as explicit
arguments. -/

/-- Three-component vector, the shallow embedding of THREE.Vector3
restricted to the fields the replication code uses. -/
structure Vec3 where
  x : ℚ
  y : ℚ
  z : ℚ
  deriving Repr, DecidableEq

/-- Componentwise linear interpolation, the embedding of
THREE.Vector3.lerp: each component moves by (target - current) * alpha. -/
def Vec3.lerp (v target : Vec3) (alpha : ℚ) : Vec3 :=
  ⟨v.x + (target.x - v.x) * alpha,
   v.y + (target.y - v.y) * alpha,
   v.z + (target.z - v.z) * alpha⟩

/-- Squared Euclidean distance between two vectors; used to compare
distances without a square root (the comparison is equivalent). -/
def Vec3.distSq (a b : Vec3) : ℚ :=
  (a.x - b.x) * (a.x - b.x) + (a.y - b.y) * (a.y - b.y) + (a.z - b.z) * (a.z - b.z)

/-- Euler angle triple as stored by THREE.Euler (order XYZ throughout
this code base); components are rationals because the replica state
machine only stores and copies them. -/
structure Euler where
  x : ℚ
  y : ℚ
  z : ℚ
  deriving Repr, DecidableEq

/-- A network snapshot as produced by game.js (the playerState object)
and consumed by NetworkedPlayer.updateFromNetwork.  Every field the
receiver tests for presence is an Option. -/
structure Snapshot where
  position : Option Vec3
  rotation : Option Euler
  shipModelPosition : Option Vec3
  shipModelRotation : Option Euler
  surgeActive : Option Bool
  deriving Repr, DecidableEq

/-- The detail transform of the loaded ship model (pawn.shipModel),
present only once the asynchronous GLTF load (or its fallback)
completed. -/
structure ShipModel where
  position : Vec3
  rotation : Euler
  deriving Repr, DecidableEq

/-- The pawn group of a networked player: root transform plus the
optional ship model child. -/
structure Pawn where
  position : Vec3
  rotation : Euler
  shipModel : Option ShipModel
  deriving Repr, DecidableEq

/-- The interpolation record created in the NetworkedPlayer constructor:
current and target transforms for root and ship model plus the fixed
lerp rates. -/
structure Interpolation where
  position : Vec3
  rotation : Euler
  shipModelPosition : Vec3
  shipModelRotation : Euler
  targetPosition : Vec3
  targetRotation : Euler
  targetShipModelPosition : Vec3
  targetShipModelRotation : Euler
  positionLerpSpeed : ℚ
  rotationLerpSpeed : ℚ
  shipModelLerpSpeed : ℚ
  deriving Repr, DecidableEq

/-- The replica of one remote peer, the embedding of class
NetworkedPlayer (first revision of src/networkedPlayer.js). -/
structure NetworkedPlayer where
  peerId : String
  isHost : Bool
  pawn : Pawn
  lastKnownState : Snapshot
  lastUpdateTime : ℚ
  isActive : Bool
  hasReceivedFirstUpdate : Bool
  interpolation : Interpolation
  deriving Repr, DecidableEq

/-- The NetworkedPlayer constructor: pawn starts at (0, 20, 0), the ship
model is not yet loaded, lastUpdateTime is the construction-time
Date.now() reading, the player starts active and has received no
network data yet. -/
def NetworkedPlayer.create (peerId : String) (isHost : Bool) (now : ℚ) : NetworkedPlayer :=
  { peerId := peerId
    isHost := isHost
    pawn := { position := ⟨0, 20, 0⟩, rotation := ⟨0, 0, 0⟩, shipModel := none }
    lastKnownState :=
      { position := some ⟨0, 20, 0⟩
        rotation := some ⟨0, 0, 0⟩
        shipModelPosition := none
        shipModelRotation := none
        surgeActive := none }
    lastUpdateTime := now
    isActive := true
    hasReceivedFirstUpdate := false
    interpolation :=
      { position := ⟨0, 20, 0⟩
        rotation := ⟨0, 0, 0⟩
        shipModelPosition := ⟨0, 0, 0⟩
        shipModelRotation := ⟨0, 0, 0⟩
        targetPosition := ⟨0, 20, 0⟩
        targetRotation := ⟨0, 0, 0⟩
        targetShipModelPosition := ⟨0, 0, 0⟩
        targetShipModelRotation := ⟨0, 0, 0⟩
        positionLerpSpeed := 8
        rotationLerpSpeed := 6
        shipModelLerpSpeed := 10 } }

/-- The embedding of NetworkedPlayer.updateFromNetwork.  A null state or
a state without a position is discarded unchanged.  A valid state
refreshes lastKnownState, lastUpdateTime and isActive; the first valid
state ever received snaps both current and target transforms (and the
pawn) to the snapshot, later states only move the targets.  The final
surge branch of the source is a no-op here because the pawn group
defines no setSurge method, so the duck-typed guard is always false. -/
def NetworkedPlayer.updateFromNetwork (p : NetworkedPlayer) (state : Option Snapshot)
    (now : ℚ) : NetworkedPlayer :=
  match state with
  | none => p
  | some s =>
    match s.position with
    | none => p
    | some pos =>
      let p1 : NetworkedPlayer :=
        { p with lastKnownState := s, lastUpdateTime := now, isActive := true }
      if p1.hasReceivedFirstUpdate = false then
        let p2 : NetworkedPlayer := { p1 with hasReceivedFirstUpdate := true }
        let p3 : NetworkedPlayer :=
          { p2 with
            interpolation := { p2.interpolation with position := pos, targetPosition := pos }
            pawn := { p2.pawn with position := pos } }
        let p4 : NetworkedPlayer :=
          match s.rotation with
          | some rot =>
            { p3 with
              interpolation := { p3.interpolation with rotation := rot, targetRotation := rot }
              pawn := { p3.pawn with rotation := rot } }
          | none => p3
        let p5 : NetworkedPlayer :=
          match s.shipModelRotation, p4.pawn.shipModel with
          | some smr, some sm =>
            { p4 with
              interpolation :=
                { p4.interpolation with shipModelRotation := smr, targetShipModelRotation := smr }
              pawn := { p4.pawn with shipModel := some { sm with rotation := smr } } }
          | _, _ => p4
        let p6 : NetworkedPlayer :=
          match s.shipModelPosition, p5.pawn.shipModel with
          | some smp, some sm =>
            { p5 with
              interpolation :=
                { p5.interpolation with shipModelPosition := smp, targetShipModelPosition := smp }
              pawn := { p5.pawn with shipModel := some { sm with position := smp } } }
          | _, _ => p5
        p6
      else
        let p2 : NetworkedPlayer :=
          { p1 with interpolation := { p1.interpolation with targetPosition := pos } }
        let p3 : NetworkedPlayer :=
          match s.rotation with
          | some rot =>
            { p2 with interpolation := { p2.interpolation with targetRotation := rot } }
          | none => p2
        let p4 : NetworkedPlayer :=
          match s.shipModelRotation with
          | some smr =>
            { p3 with interpolation := { p3.interpolation with targetShipModelRotation := smr } }
          | none => p3
        let p5 : NetworkedPlayer :=
          match s.shipModelPosition with
          | some smp =>
            { p4 with interpolation := { p4.interpolation with targetShipModelPosition := smp } }
          | none => p4
        p5

/-- The embedding of the per-frame NetworkedPlayer.update.  The Euler
interpolation primitive (interpolateEuler in the source, verified
separately over the reals below) is passed in as a parameter because the
rational replica state cannot evaluate trigonometry; every theorem below
holds for an arbitrary such primitive.  First the staleness check marks
the player inactive if more than 5000 ms passed since the last network
update; then, if still active, current transforms ease toward the
targets and are copied onto the pawn. -/
def NetworkedPlayer.update (slerpE : Euler → Euler → ℚ → Euler) (p : NetworkedPlayer)
    (now deltaTime : ℚ) : NetworkedPlayer :=
  let timeSinceLastUpdate := now - p.lastUpdateTime
  let p1 : NetworkedPlayer :=
    if 5000 < timeSinceLastUpdate ∧ p.isActive = true then { p with isActive := false } else p
  if p1.isActive = true then
    let i := p1.interpolation
    let newPos := i.position.lerp i.targetPosition (i.positionLerpSpeed * deltaTime)
    let newRot := slerpE i.rotation i.targetRotation (i.rotationLerpSpeed * deltaTime)
    let p2 : NetworkedPlayer :=
      { p1 with
        interpolation := { i with position := newPos, rotation := newRot }
        pawn := { p1.pawn with position := newPos, rotation := newRot } }
    match p2.pawn.shipModel with
    | some sm =>
      let j := p2.interpolation
      let newSmPos := j.shipModelPosition.lerp j.targetShipModelPosition
        (j.shipModelLerpSpeed * deltaTime)
      let newSmRot := slerpE j.shipModelRotation j.targetShipModelRotation
        (j.shipModelLerpSpeed * deltaTime)
      { p2 with
        interpolation := { j with shipModelPosition := newSmPos, shipModelRotation := newSmRot }
        pawn := { p2.pawn with shipModel := some { sm with position := newSmPos, rotation := newSmRot } } }
    | none => p2
  else p1

/-- Accessor isPlayerActive of the source. -/
def NetworkedPlayer.isPlayerActive (p : NetworkedPlayer) : Bool :=
  p.isActive

/-- Accessor getPosition of the source (returns a clone of the pawn
position; cloning is the identity in a value model). -/
def NetworkedPlayer.getPosition (p : NetworkedPlayer) : Vec3 :=
  p.pawn.position

/-- Association list standing for the JS Map networkedPlayers; JS Maps
preserve insertion order, replace in place on set of an existing key and
remove on delete. -/
abbrev PlayerMap := List (String × NetworkedPlayer)

/-- Embedding of Map.prototype.has. -/
def mapHas (m : PlayerMap) (k : String) : Bool :=
  m.any (fun kv => kv.1 == k)

/-- Embedding of Map.prototype.get. -/
def mapGet (m : PlayerMap) (k : String) : Option NetworkedPlayer :=
  (m.find? (fun kv => kv.1 == k)).map (fun kv => kv.2)

/-- Embedding of Map.prototype.set: replace in place when the key is
present, append otherwise. -/
def mapSet (m : PlayerMap) (k : String) (v : NetworkedPlayer) : PlayerMap :=
  if mapHas m k then m.map (fun kv => if kv.1 == k then (k, v) else kv) else m ++ [(k, v)]

/-- Embedding of Map.prototype.delete. -/
def mapDelete (m : PlayerMap) (k : String) : PlayerMap :=
  m.filter (fun kv => kv.1 != k)

/-- The registry of remote replicas, the embedding of class
NetworkedPlayerManager (first revision of src/networkedPlayer.js). -/
structure NetworkedPlayerManager where
  networkedPlayers : PlayerMap
  isMultiplayerMode : Bool
  localPeerId : Option String
  lastCleanupTime : Option ℚ

/-- The manager constructor including detectMultiplayerMode: with a live
initialized network the manager runs in multiplayer mode and records the
local peer id, otherwise it runs in single-player mode with no local
peer id.  The player map starts empty either way. -/
def NetworkedPlayerManager.create (networkInitialized : Bool) (myPeerId : String) :
    NetworkedPlayerManager :=
  if networkInitialized then
    { networkedPlayers := []
      isMultiplayerMode := true
      localPeerId := some myPeerId
      lastCleanupTime := none }
  else
    { networkedPlayers := []
      isMultiplayerMode := false
      localPeerId := none
      lastCleanupTime := none }

/-- Embedding of shouldCreateNetworkedPlayers. -/
def NetworkedPlayerManager.shouldCreateNetworkedPlayers (m : NetworkedPlayerManager) : Bool :=
  m.isMultiplayerMode

/-- Embedding of addPlayer: skipped in single-player mode, for the local
peer id, and for an already tracked peer id; otherwise a fresh
NetworkedPlayer is created and stored. -/
def NetworkedPlayerManager.addPlayer (m : NetworkedPlayerManager) (peerId : String)
    (isHost : Bool) (now : ℚ) : NetworkedPlayerManager :=
  if m.shouldCreateNetworkedPlayers = false then m
  else if m.localPeerId = some peerId then m
  else if mapHas m.networkedPlayers peerId then m
  else
    { m with
      networkedPlayers :=
        mapSet m.networkedPlayers peerId (NetworkedPlayer.create peerId isHost now) }

/-- Embedding of removePlayer: destroys the ship (a scene-side effect
with no state in this model) and deletes the map entry when present. -/
def NetworkedPlayerManager.removePlayer (m : NetworkedPlayerManager) (peerId : String) :
    NetworkedPlayerManager :=
  match mapGet m.networkedPlayers peerId with
  | some _ => { m with networkedPlayers := mapDelete m.networkedPlayers peerId }
  | none => m

/-- Embedding of updatePlayer: gated on multiplayer mode; updates a
tracked player in place, otherwise auto-creates the player (role
inferred from the global network flags, passed here as arguments) and
retries the update on the freshly created entry. -/
def NetworkedPlayerManager.updatePlayer (m : NetworkedPlayerManager) (peerId : String)
    (state : Option Snapshot) (netIsBase : Bool) (netMyPeerId : String) (now : ℚ) :
    NetworkedPlayerManager :=
  if m.shouldCreateNetworkedPlayers = false then m
  else
    match mapGet m.networkedPlayers peerId with
    | some p =>
      { m with networkedPlayers := mapSet m.networkedPlayers peerId (p.updateFromNetwork state now) }
    | none =>
      let isHost := netIsBase && peerId != netMyPeerId
      let m1 := m.addPlayer peerId isHost now
      match mapGet m1.networkedPlayers peerId with
      | some newPlayer =>
        { m1 with
          networkedPlayers := mapSet m1.networkedPlayers peerId (newPlayer.updateFromNetwork state now) }
      | none => m1

/-- Embedding of cleanupInactivePlayers: at most once per 10000 ms the
manager removes every player whose isPlayerActive is false. -/
def NetworkedPlayerManager.cleanupInactivePlayers (m : NetworkedPlayerManager) (now : ℚ) :
    NetworkedPlayerManager :=
  let due :=
    match m.lastCleanupTime with
    | none => true
    | some t => decide (10000 < now - t)
  if due then
    { m with
      lastCleanupTime := some now
      networkedPlayers := m.networkedPlayers.filter (fun kv => kv.2.isPlayerActive) }
  else m

/-- Embedding of the per-frame manager update: gated on multiplayer
mode, ticks every player, then runs the periodic cleanup. -/
def NetworkedPlayerManager.update (slerpE : Euler → Euler → ℚ → Euler)
    (m : NetworkedPlayerManager) (now deltaTime : ℚ) : NetworkedPlayerManager :=
  if m.shouldCreateNetworkedPlayers = false then m
  else
    let m1 : NetworkedPlayerManager :=
      { m with
        networkedPlayers :=
          m.networkedPlayers.map (fun kv => (kv.1, kv.2.update slerpE now deltaTime)) }
    m1.cleanupInactivePlayers now

/-- Embedding of getAllPositions: empty in single-player mode, otherwise
the positions of exactly the active players. -/
def NetworkedPlayerManager.getAllPositions (m : NetworkedPlayerManager) : List Vec3 :=
  if m.shouldCreateNetworkedPlayers = false then []
  else
    (m.networkedPlayers.filter (fun kv => kv.2.isPlayerActive)).map (fun kv => kv.2.getPosition)

/-- One registry operation, used to quantify over arbitrary call
sequences against the manager. -/
inductive ManagerOp where
  | add (peerId : String) (isHost : Bool) (now : ℚ)
  | remove (peerId : String)
  | updateP (peerId : String) (state : Option Snapshot) (netIsBase : Bool)
      (netMyPeerId : String) (now : ℚ)
  | tick (now deltaTime : ℚ)

/-- Interpretation of one registry operation. -/
def applyOp (slerpE : Euler → Euler → ℚ → Euler) (m : NetworkedPlayerManager)
    (op : ManagerOp) : NetworkedPlayerManager :=
  match op with
  | ManagerOp.add peerId isHost now => m.addPlayer peerId isHost now
  | ManagerOp.remove peerId => m.removePlayer peerId
  | ManagerOp.updateP peerId state netIsBase netMyPeerId now =>
    m.updatePlayer peerId state netIsBase netMyPeerId now
  | ManagerOp.tick now deltaTime => m.update slerpE now deltaTime

/-- Interpretation of a sequence of registry operations. -/
def applyOps (slerpE : Euler → Euler → ℚ → Euler) (m : NetworkedPlayerManager)
    (ops : List ManagerOp) : NetworkedPlayerManager :=
  ops.foldl (applyOp slerpE) m

/-- One pass of the broadcast throttle in the animate loop of game.js
(the lastNetworkUpdate window variable): given the stored time of the
last successful broadcast (none before the first one) and the current
Date.now() reading, decide whether broadcastPlayerState runs this frame
and return the updated stored time. -/
def throttleStep (lastNetworkUpdate : Option ℚ) (now : ℚ) : Option ℚ × Bool :=
  match lastNetworkUpdate with
  | none => (some now, true)
  | some last => if 100 < now - last then (some now, true) else (some last, false)

/-- The times at which the transport send actually fires when the
animate loop attempts a broadcast at each of the given times with
eligibility holding throughout, starting from the given stored
last-broadcast time. -/
def sendTimesAux (last : Option ℚ) : List ℚ → List ℚ
  | [] => []
  | now :: rest =>
    let r := throttleStep last now
    if r.2 then now :: sendTimesAux r.1 rest else sendTimesAux r.1 rest

/-- The send times of a full run that starts with no previous broadcast
recorded, as on page load. -/
def sendTimes (times : List ℚ) : List ℚ :=
  sendTimesAux none times

/-- Frame times (in ms) of one second of simulated time at 60 ticks per
second: tick k happens at k * 1000 / 60 ms. -/
def sixtyTickTimes : List ℚ :=
  (List.range 60).map (fun k : ℕ => (k : ℚ) * (1000 / 60))

/-- A storm cell of the global ocean wave state (game.js), read by
getLocalWaveMultiplier. -/
structure Storm where
  x : ℚ
  z : ℚ
  radius : ℚ
  swirl : ℚ
  amp : ℚ
  deriving Repr, DecidableEq

/-- The weather state read by the height field: global amplitude and
speed plus the active storm cells. -/
structure WaveState where
  amp : ℚ
  speed : ℚ
  storms : List Storm
  deriving Repr, DecidableEq

/-- The getLocalWaveMultiplier helper exactly as written in
src/shipPawn.js lines 30-50 (and identically inside the ocean-mesh loop
of src/game.js lines 591-611): storm cells within radius raise the
local amplitude and add a swirl term, the base factor is calm near the
origin and wilder far out.  The transcendental primitives sin and sqrt
are passed in unevaluated. -/
def getLocalWaveMultiplier (msin msqrt : ℚ → ℚ) (w : WaveState) (x z : ℚ) : ℚ :=
  let acc := w.storms.foldl
    (fun st storm =>
      let dx := x - storm.x
      let dz := z - storm.z
      let dist := msqrt (dx * dx + dz * dz)
      if dist < storm.radius then
        (st.1 + msin (storm.swirl + dist * 0.02) * storm.amp * (1 - dist / storm.radius) * 0.5,
         max st.2 (1 + (storm.amp - 1) * (1 - dist / storm.radius)))
      else st)
    ((0 : ℚ), (1 : ℚ))
  let swirlY := acc.1
  let localAmp := acc.2
  let dist := msqrt (x * x + z * z)
  let base : ℚ := if dist < 30 then 0.7 else if 80 < dist then 1.5 else 1
  base * localAmp + swirlY

/-- The ocean surface height of src/shipPawn.js lines 13-60
(calculateOceanHeight): base level 20 plus three sinusoidal terms in x,
z and the simulation time, all scaled by the local wave multiplier
computed once. -/
def calculateOceanHeight (msin mcos msqrt : ℚ → ℚ) (t : ℚ) (w : WaveState) (x z : ℚ) : ℚ :=
  let waveMultiplier := getLocalWaveMultiplier msin msqrt w x z
  20 + msin (0.09 * x + t * 0.7) * 1.2 * waveMultiplier
    + mcos (0.08 * z + t * 0.5) * 1.0 * waveMultiplier
    + msin (0.07 * (x + z) + t * 0.3) * 0.7 * waveMultiplier

/-- The surface height the ocean mesh of src/game.js lines 612-632
assigns to a vertex at world coordinates (x, z): the mesh sits at
y = 20 (line 578) and each vertex gets the three wave terms of lines
621-623, each scaled by its own call of getLocalWaveMultiplier. -/
def gameOceanSurfaceHeight (msin mcos msqrt : ℚ → ℚ) (t : ℚ) (w : WaveState) (x z : ℚ) : ℚ :=
  20 + (msin (0.09 * x + t * 0.7) * 1.2 * getLocalWaveMultiplier msin msqrt w x z
    + mcos (0.08 * z + t * 0.5) * 1.0 * getLocalWaveMultiplier msin msqrt w x z
    + msin (0.07 * (x + z) + t * 0.3) * 0.7 * getLocalWaveMultiplier msin msqrt w x z)

/-- C1: applying a first valid snapshot to a fresh replica
(hasReceivedFirstUpdate false) sets the current interpolated transform
and the target transform both exactly to the snapshot values, with no
interpolation lag: immediately afterwards getPosition equals the
snapshot position, and when the snapshot also carries a rotation both
current and target rotation equal it. -/
theorem c1_first_snapshot_snaps (p : NetworkedPlayer) (s : Snapshot) (pos : Vec3) (now : ℚ)
    (hFresh : p.hasReceivedFirstUpdate = false)
    (hPos : s.position = some pos) :
    ((p.updateFromNetwork (some s) now).interpolation.position = pos ∧
      (p.updateFromNetwork (some s) now).interpolation.targetPosition = pos ∧
      (p.updateFromNetwork (some s) now).getPosition = pos) ∧
    (∀ rot, s.rotation = some rot →
      (p.updateFromNetwork (some s) now).interpolation.rotation = rot ∧
      (p.updateFromNetwork (some s) now).interpolation.targetRotation = rot ∧
      (p.updateFromNetwork (some s) now).pawn.rotation = rot) := by
  simp only [NetworkedPlayer.updateFromNetwork, NetworkedPlayer.getPosition, hPos, hFresh]
  cases hr : s.rotation <;>
    cases hsr : s.shipModelRotation <;>
      cases hsp : s.shipModelPosition <;>
        cases hm : p.pawn.shipModel <;>
          simp [hr, hsr, hsp, hm]

/-- Witness for c1_first_snapshot_snaps at a concrete fresh replica and
snapshot. -/
theorem c1_first_snapshot_snaps_witness :
    ((NetworkedPlayer.create "p2" false 0).hasReceivedFirstUpdate = false ∧
      (Snapshot.mk (some ⟨10, 20, 30⟩) (some ⟨0, 0, 0⟩) none none none).position =
        some ⟨10, 20, 30⟩) ∧
    ((NetworkedPlayer.create "p2" false 0).updateFromNetwork
        (some (Snapshot.mk (some ⟨10, 20, 30⟩) (some ⟨0, 0, 0⟩) none none none)) 5).getPosition =
      ⟨10, 20, 30⟩ := by
  refine ⟨⟨by decide, by decide⟩, ?_⟩
  exact (c1_first_snapshot_snaps (NetworkedPlayer.create "p2" false 0)
    (Snapshot.mk (some ⟨10, 20, 30⟩) (some ⟨0, 0, 0⟩) none none none)
    ⟨10, 20, 30⟩ 5 (by decide) (by decide)).1.2.2

/-- C7: a malformed snapshot (a null state, or a state missing the root
position) is discarded by updateFromNetwork as a complete no-op: the
whole replica state, including lastUpdateTime, isActive and all current
and target transforms, is returned unchanged. -/
theorem c7_malformed_snapshot_noop (p : NetworkedPlayer) (now : ℚ) :
    p.updateFromNetwork none now = p ∧
    ∀ s : Snapshot, s.position = none → p.updateFromNetwork (some s) now = p := by
  constructor
  · rfl
  · intro s hs
    simp [NetworkedPlayer.updateFromNetwork, hs]

/-- Witness for c7_malformed_snapshot_noop at a concrete replica and a
concrete positionless snapshot. -/
theorem c7_malformed_snapshot_noop_witness :
    (Snapshot.mk none (some ⟨1, 2, 3⟩) none none (some true)).position = none ∧
    (NetworkedPlayer.create "p3" true 7).updateFromNetwork
        (some (Snapshot.mk none (some ⟨1, 2, 3⟩) none none (some true))) 99 =
      NetworkedPlayer.create "p3" true 7 := by
  refine ⟨by decide, ?_⟩
  exact (c7_malformed_snapshot_noop (NetworkedPlayer.create "p3" true 7) 99).2
    (Snapshot.mk none (some ⟨1, 2, 3⟩) none none (some true)) (by decide)

/-- C3: staleness handling of the replica.  First conjunct: a tick more
than 5000 ms after the last received update turns an active replica
inactive.  Second conjunct: a tick of an inactive replica is the
identity, so the transition happens exactly once and being inactive is
absorbing until a snapshot arrives.  Third conjunct: any valid snapshot
sets isActive back to true on the very call that applies it. -/
theorem c3_staleness_transition (slerpE : Euler → Euler → ℚ → Euler)
    (p : NetworkedPlayer) (now deltaTime : ℚ) :
    (p.isActive = true → 5000 < now - p.lastUpdateTime →
      (p.update slerpE now deltaTime).isActive = false) ∧
    (p.isActive = false → p.update slerpE now deltaTime = p) ∧
    (∀ (s : Snapshot) (pos : Vec3) (now2 : ℚ), s.position = some pos →
      (p.updateFromNetwork (some s) now2).isActive = true) := by
  refine ⟨?_, ?_, ?_⟩
  · intro hAct hLate
    simp [NetworkedPlayer.update, hAct, hLate]
  · intro hInact
    simp [NetworkedPlayer.update, hInact]
  · intro s pos now2 hs
    cases hf : p.hasReceivedFirstUpdate <;>
      cases hr : s.rotation <;>
        cases hsr : s.shipModelRotation <;>
          cases hsp : s.shipModelPosition <;>
            cases hm : p.pawn.shipModel <;>
              simp [NetworkedPlayer.updateFromNetwork, hs, hf, hr, hsr, hsp, hm]

/-- Witness for c3_staleness_transition: the concrete replica created at
time 0 goes inactive on a tick at 6000 ms, and a valid snapshot on the
now-inactive replica reactivates it on the same call. -/
theorem c3_staleness_transition_witness :
    ((NetworkedPlayer.create "p4" false 0).isActive = true ∧
      (5000 : ℚ) < 6000 - (NetworkedPlayer.create "p4" false 0).lastUpdateTime ∧
      ((NetworkedPlayer.create "p4" false 0).update (fun c _ _ => c) 6000 (1 / 60)).isActive =
        false) ∧
    (((NetworkedPlayer.create "p4" false 0).update (fun c _ _ => c) 6000
          (1 / 60)).updateFromNetwork
        (some (Snapshot.mk (some ⟨1, 1, 1⟩) none none none none)) 7000).isActive = true := by
  have h1 : (NetworkedPlayer.create "p4" false 0).isActive = true := by decide
  have h2 : (5000 : ℚ) < 6000 - (NetworkedPlayer.create "p4" false 0).lastUpdateTime := by
    norm_num [NetworkedPlayer.create]
  refine ⟨⟨h1, h2,
    (c3_staleness_transition (fun c _ _ => c) (NetworkedPlayer.create "p4" false 0)
      6000 (1 / 60)).1 h1 h2⟩, ?_⟩
  exact (c3_staleness_transition (fun c _ _ => c)
      ((NetworkedPlayer.create "p4" false 0).update (fun c _ _ => c) 6000 (1 / 60)) 0 0).2.2
    (Snapshot.mk (some ⟨1, 1, 1⟩) none none none none) ⟨1, 1, 1⟩ 7000 rfl

/-- Distance of the lerp result from its start point: the move covers
the fraction alpha of the distance to the target (squared distances, so
the factor is alpha squared). -/
theorem Vec3.distSq_lerp_left (c t : Vec3) (a : ℚ) :
    Vec3.distSq (c.lerp t a) c = a * a * Vec3.distSq t c := by
  simp only [Vec3.lerp, Vec3.distSq]
  ring

/-- Distance of the lerp result from the target: the fraction 1 - alpha
of the distance remains. -/
theorem Vec3.distSq_lerp_right (c t : Vec3) (a : ℚ) :
    Vec3.distSq (c.lerp t a) t = (1 - a) * (1 - a) * Vec3.distSq c t := by
  simp only [Vec3.lerp, Vec3.distSq]
  ring

/-- The squared distance of distinct vectors is positive. -/
theorem Vec3.distSq_pos (a b : Vec3) (h : a ≠ b) : 0 < Vec3.distSq a b := by
  have hcomp : a.x ≠ b.x ∨ a.y ≠ b.y ∨ a.z ≠ b.z := by
    by_contra hc
    push_neg at hc
    exact h (by cases a; cases b; simp_all)
  have hx := mul_self_nonneg (a.x - b.x)
  have hy := mul_self_nonneg (a.y - b.y)
  have hz := mul_self_nonneg (a.z - b.z)
  simp only [Vec3.distSq]
  rcases hcomp with hc | hc | hc
  · nlinarith [mul_self_pos.mpr (sub_ne_zero.mpr hc)]
  · nlinarith [mul_self_pos.mpr (sub_ne_zero.mpr hc)]
  · nlinarith [mul_self_pos.mpr (sub_ne_zero.mpr hc)]

/-- Projections of updateFromNetwork on a replica that has already
received its first snapshot: the current transforms and the pawn are
untouched, only the targets move, and the bookkeeping fields are
refreshed. -/
theorem updateFromNetwork_subsequent_proj (p : NetworkedPlayer) (s : Snapshot) (pos : Vec3)
    (now : ℚ) (hFirst : p.hasReceivedFirstUpdate = true) (hPos : s.position = some pos) :
    (p.updateFromNetwork (some s) now).interpolation.position = p.interpolation.position ∧
    (p.updateFromNetwork (some s) now).pawn = p.pawn ∧
    (p.updateFromNetwork (some s) now).interpolation.targetPosition = pos ∧
    (p.updateFromNetwork (some s) now).interpolation.positionLerpSpeed =
      p.interpolation.positionLerpSpeed ∧
    (p.updateFromNetwork (some s) now).isActive = true ∧
    (p.updateFromNetwork (some s) now).lastUpdateTime = now := by
  cases hr : s.rotation <;>
    cases hsr : s.shipModelRotation <;>
      cases hsp : s.shipModelPosition <;>
        simp [NetworkedPlayer.updateFromNetwork, hPos, hFirst, hr, hsr, hsp]

/-- The root position after one active, non-stale tick is exactly the
lerp of the current position toward the target at rate
positionLerpSpeed * deltaTime. -/
theorem update_active_position (slerpE : Euler → Euler → ℚ → Euler) (p : NetworkedPlayer)
    (now deltaTime : ℚ) (hAct : p.isActive = true)
    (hRecent : ¬ (5000 < now - p.lastUpdateTime)) :
    (p.update slerpE now deltaTime).interpolation.position =
      p.interpolation.position.lerp p.interpolation.targetPosition
        (p.interpolation.positionLerpSpeed * deltaTime) := by
  cases hm : p.pawn.shipModel <;>
    simp [NetworkedPlayer.update, hAct, hRecent, hm]

/-- C2: on a replica that already received its first snapshot, a further
snapshot only moves the targets (current interpolated position and pawn
position are unchanged), and one subsequent tick with rate r and step dt
such that 0 <= r * dt < 1 moves the current position strictly closer to
the target without reaching it: the (squared) distance travelled from
the previous position stays strictly below the (squared) distance of the
target from the previous position. -/
theorem c2_subsequent_snapshot_interpolates (slerpE : Euler → Euler → ℚ → Euler)
    (p : NetworkedPlayer) (s : Snapshot) (pos : Vec3) (now now2 deltaTime : ℚ)
    (hFirst : p.hasReceivedFirstUpdate = true) (hPos : s.position = some pos) :
    (p.updateFromNetwork (some s) now).interpolation.position = p.interpolation.position ∧
    (p.updateFromNetwork (some s) now).pawn.position = p.pawn.position ∧
    (p.updateFromNetwork (some s) now).interpolation.targetPosition = pos ∧
    (now2 - now ≤ 5000 →
      0 ≤ p.interpolation.positionLerpSpeed * deltaTime →
      p.interpolation.positionLerpSpeed * deltaTime < 1 →
      pos ≠ p.interpolation.position →
      Vec3.distSq
          (((p.updateFromNetwork (some s) now).update slerpE now2 deltaTime).interpolation.position)
          p.interpolation.position <
        Vec3.distSq pos p.interpolation.position ∧
      ((p.updateFromNetwork (some s) now).update slerpE now2 deltaTime).interpolation.position ≠
        pos) := by
  obtain ⟨hcur, hpawn, htgt, hspeed, hact, htime⟩ :=
    updateFromNetwork_subsequent_proj p s pos now hFirst hPos
  refine ⟨hcur, by rw [hpawn], htgt, ?_⟩
  intro hrecent hα0 hα1 hne
  have hrecent2 : ¬ (5000 < now2 - (p.updateFromNetwork (some s) now).lastUpdateTime) := by
    rw [htime]
    linarith
  have hpos2 := update_active_position slerpE (p.updateFromNetwork (some s) now) now2 deltaTime
    hact hrecent2
  rw [hcur, htgt, hspeed] at hpos2
  rw [hpos2]
  set α := p.interpolation.positionLerpSpeed * deltaTime with hαdef
  have hdpos : 0 < Vec3.distSq pos p.interpolation.position := Vec3.distSq_pos _ _ hne
  constructor
  · rw [Vec3.distSq_lerp_left]
    have h1 : 0 < 1 - α * α := by nlinarith
    nlinarith [mul_pos hdpos h1]
  · intro heq
    have h0 : Vec3.distSq (p.interpolation.position.lerp pos α) pos = 0 := by
      rw [heq]
      simp [Vec3.distSq]
    rw [Vec3.distSq_lerp_right] at h0
    have hdpos2 : 0 < Vec3.distSq p.interpolation.position pos :=
      Vec3.distSq_pos _ _ (fun hpp => hne hpp.symm)
    have h1 : 0 < 1 - α := by linarith
    nlinarith [mul_pos (mul_pos h1 h1) hdpos2]

/-- A concrete replica that has already received its first snapshot,
used by the witness of the subsequent-snapshot theorem. -/
def c2WitnessPlayer : NetworkedPlayer :=
  { peerId := "w2"
    isHost := false
    pawn := { position := ⟨0, 20, 0⟩, rotation := ⟨0, 0, 0⟩, shipModel := none }
    lastKnownState :=
      { position := some ⟨0, 20, 0⟩
        rotation := some ⟨0, 0, 0⟩
        shipModelPosition := none
        shipModelRotation := none
        surgeActive := none }
    lastUpdateTime := 0
    isActive := true
    hasReceivedFirstUpdate := true
    interpolation :=
      { position := ⟨0, 20, 0⟩
        rotation := ⟨0, 0, 0⟩
        shipModelPosition := ⟨0, 0, 0⟩
        shipModelRotation := ⟨0, 0, 0⟩
        targetPosition := ⟨0, 20, 0⟩
        targetRotation := ⟨0, 0, 0⟩
        targetShipModelPosition := ⟨0, 0, 0⟩
        targetShipModelRotation := ⟨0, 0, 0⟩
        positionLerpSpeed := 8
        rotationLerpSpeed := 6
        shipModelLerpSpeed := 10 } }

/-- Concrete subsequent snapshot used by the same witness. -/
def c2WitnessSnap : Snapshot :=
  Snapshot.mk (some ⟨1, 20, 0⟩) none none none none

/-- Witness for c2_subsequent_snapshot_interpolates: at the concrete
replica and snapshot above, a tick of 1/60 s at rate 8 moves the current
position strictly closer to the target (squared distances compared). -/
theorem c2_subsequent_snapshot_interpolates_witness :
    (c2WitnessPlayer.hasReceivedFirstUpdate = true ∧
      c2WitnessSnap.position = some ⟨1, 20, 0⟩ ∧
      (1000 : ℚ) - 0 ≤ 5000 ∧
      0 ≤ c2WitnessPlayer.interpolation.positionLerpSpeed * (1 / 60) ∧
      c2WitnessPlayer.interpolation.positionLerpSpeed * (1 / 60) < 1 ∧
      (⟨1, 20, 0⟩ : Vec3) ≠ c2WitnessPlayer.interpolation.position) ∧
    Vec3.distSq
        (((c2WitnessPlayer.updateFromNetwork (some c2WitnessSnap) 0).update (fun c _ _ => c)
              1000 (1 / 60)).interpolation.position)
        c2WitnessPlayer.interpolation.position <
      Vec3.distSq ⟨1, 20, 0⟩ c2WitnessPlayer.interpolation.position := by
  have h1 : c2WitnessPlayer.hasReceivedFirstUpdate = true := rfl
  have h2 : c2WitnessSnap.position = some ⟨1, 20, 0⟩ := rfl
  have h3 : (1000 : ℚ) - 0 ≤ 5000 := by norm_num
  have h4 : 0 ≤ c2WitnessPlayer.interpolation.positionLerpSpeed * (1 / 60) := by
    norm_num [c2WitnessPlayer]
  have h5 : c2WitnessPlayer.interpolation.positionLerpSpeed * (1 / 60) < 1 := by
    norm_num [c2WitnessPlayer]
  have h6 : (⟨1, 20, 0⟩ : Vec3) ≠ c2WitnessPlayer.interpolation.position := by
    simp [c2WitnessPlayer]
  exact ⟨⟨h1, h2, h3, h4, h5, h6⟩,
    ((c2_subsequent_snapshot_interpolates (fun c _ _ => c) c2WitnessPlayer c2WitnessSnap
        ⟨1, 20, 0⟩ 0 1000 (1 / 60) h1 h2).2.2.2 h3 h4 h5 h6).1⟩

/-- C10: a freshly created replica has received no snapshot yet but
isPlayerActive already returns true, its position is the spawn point
(0, 20, 0), it stays active on every tick within 5000 ms of creation,
and adding it to a multiplayer registry makes getAllPositions include
the spawn point immediately. -/
theorem c10_fresh_entity_counts_as_active (slerpE : Euler → Euler → ℚ → Euler)
    (peerId : String) (isHost : Bool) (created : ℚ) :
    (NetworkedPlayer.create peerId isHost created).hasReceivedFirstUpdate = false ∧
    (NetworkedPlayer.create peerId isHost created).isPlayerActive = true ∧
    (NetworkedPlayer.create peerId isHost created).getPosition = ⟨0, 20, 0⟩ ∧
    (∀ now deltaTime : ℚ, now - created ≤ 5000 →
      ((NetworkedPlayer.create peerId isHost created).update slerpE now deltaTime).isActive =
        true) ∧
    (∀ (m : NetworkedPlayerManager) (now : ℚ),
      m.isMultiplayerMode = true → m.localPeerId ≠ some peerId →
      mapHas m.networkedPlayers peerId = false →
      (⟨0, 20, 0⟩ : Vec3) ∈ (m.addPlayer peerId isHost now).getAllPositions) := by
  refine ⟨rfl, rfl, rfl, ?_, ?_⟩
  · intro now deltaTime h
    simp [NetworkedPlayer.update, NetworkedPlayer.create, not_lt.mpr h]
  · intro m now hmode hlocal hhas
    simp [NetworkedPlayerManager.addPlayer, NetworkedPlayerManager.shouldCreateNetworkedPlayers,
      NetworkedPlayerManager.getAllPositions, hmode, hlocal, hhas, mapSet,
      List.filter_append, List.map_append, NetworkedPlayer.create,
      NetworkedPlayer.isPlayerActive, NetworkedPlayer.getPosition]

/-- Witness for c10_fresh_entity_counts_as_active at a concrete peer,
whose registry is the freshly constructed multiplayer manager. -/
theorem c10_fresh_entity_counts_as_active_witness :
    ((100 : ℚ) - 0 ≤ 5000 ∧
      (NetworkedPlayerManager.create true "me").isMultiplayerMode = true ∧
      (NetworkedPlayerManager.create true "me").localPeerId ≠ some "p6" ∧
      mapHas (NetworkedPlayerManager.create true "me").networkedPlayers "p6" = false) ∧
    ((NetworkedPlayer.create "p6" false 0).update (fun c _ _ => c) 100 (1 / 60)).isActive =
        true ∧
    (⟨0, 20, 0⟩ : Vec3) ∈
      ((NetworkedPlayerManager.create true "me").addPlayer "p6" false 100).getAllPositions := by
  have h1 : (100 : ℚ) - 0 ≤ 5000 := by norm_num
  have h2 : (NetworkedPlayerManager.create true "me").isMultiplayerMode = true := rfl
  have h3 : (NetworkedPlayerManager.create true "me").localPeerId ≠ some "p6" := by
    simp [NetworkedPlayerManager.create]
  have h4 : mapHas (NetworkedPlayerManager.create true "me").networkedPlayers "p6" = false :=
    rfl
  exact ⟨⟨h1, h2, h3, h4⟩,
    (c10_fresh_entity_counts_as_active (fun c _ _ => c) "p6" false 0).2.2.2.1 100 (1 / 60) h1,
    (c10_fresh_entity_counts_as_active (fun c _ _ => c) "p6" false 0).2.2.2.2
      (NetworkedPlayerManager.create true "me") 100 h2 h3 h4⟩

/-- Characterization of mapHas through membership. -/
theorem mapHas_eq_true_iff (m : PlayerMap) (k : String) :
    mapHas m k = true ↔ ∃ kv ∈ m, kv.1 = k := by
  simp [mapHas, List.any_eq_true, beq_iff_eq]

/-- A key absent from a map stays absent in any sublist of it. -/
theorem mapHas_false_of_sublist {m1 m2 : PlayerMap} (h : m1.Sublist m2) (k : String)
    (hk : mapHas m2 k = false) : mapHas m1 k = false := by
  rw [Bool.eq_false_iff]
  intro htrue
  rw [mapHas_eq_true_iff] at htrue
  obtain ⟨kv, hmem, hfst⟩ := htrue
  have h2 : mapHas m2 k = true := (mapHas_eq_true_iff _ _).mpr ⟨kv, h.subset hmem, hfst⟩
  rw [hk] at h2
  cases h2

/-- A successful lookup implies the key is present. -/
theorem mapHas_of_mapGet_some {m : PlayerMap} {k : String} {p : NetworkedPlayer}
    (h : mapGet m k = some p) : mapHas m k = true := by
  simp only [mapGet, Option.map_eq_some'] at h
  obtain ⟨kv, hfind, hv⟩ := h
  have hp := List.find?_some hfind
  have hmem := List.mem_of_find?_eq_some hfind
  exact (mapHas_eq_true_iff _ _).mpr ⟨kv, hmem, by simpa using hp⟩

/-- Setting an existing key leaves the key list unchanged (in-place
replacement, as for a JS Map). -/
theorem mapSet_map_fst_of_has (m : PlayerMap) (k : String) (v : NetworkedPlayer)
    (h : mapHas m k = true) : (mapSet m k v).map Prod.fst = m.map Prod.fst := by
  simp only [mapSet, h, if_true]
  rw [List.map_map]
  apply List.map_congr_left
  intro kv _
  by_cases hk : kv.1 = k <;> simp [hk]

/-- Setting an absent key appends it (insertion order, as for a JS Map). -/
theorem mapSet_of_not_has (m : PlayerMap) (k : String) (v : NetworkedPlayer)
    (h : mapHas m k = false) : mapSet m k v = m ++ [(k, v)] := by
  simp [mapSet, h]

/-- An absent key is not among the mapped-out keys. -/
theorem not_mem_keys_of_mapHas_false {m : PlayerMap} {k : String}
    (h : mapHas m k = false) : k ∉ m.map Prod.fst := by
  intro hmem
  rw [List.mem_map] at hmem
  obtain ⟨kv, hkv, hfst⟩ := hmem
  have h2 : mapHas m k = true := (mapHas_eq_true_iff _ _).mpr ⟨kv, hkv, hfst⟩
  rw [h] at h2
  cases h2

/-- Presence of a key only depends on the key list. -/
theorem mapHas_eq_any_keys (m : PlayerMap) (k : String) :
    mapHas m k = (m.map Prod.fst).any (fun s => s == k) := by
  induction m with
  | nil => rfl
  | cons kv rest ih =>
    simp only [mapHas, List.map_cons, List.any_cons] at ih ⊢
    rw [ih]

/-- The registry invariant of the claim: each peer id is tracked at most
once, and the local peer id (when the mode records one) is never
tracked. -/
def managerInv (m : NetworkedPlayerManager) : Prop :=
  (m.networkedPlayers.map Prod.fst).Nodup ∧
  ∀ lid, m.localPeerId = some lid → mapHas m.networkedPlayers lid = false

/-- Replacing the value of an already tracked key preserves the registry
invariant: the key list is untouched. -/
theorem managerInv_mapSet_has (m : NetworkedPlayerManager) (k : String) (v : NetworkedPlayer)
    (h : managerInv m) (hk : mapHas m.networkedPlayers k = true) :
    managerInv { m with networkedPlayers := mapSet m.networkedPlayers k v } := by
  obtain ⟨hnd, hloc⟩ := h
  have hkeys := mapSet_map_fst_of_has m.networkedPlayers k v hk
  constructor
  · rw [hkeys]
    exact hnd
  · intro lid hlid
    rw [mapHas_eq_any_keys, hkeys, ← mapHas_eq_any_keys]
    exact hloc lid hlid

/-- addPlayer preserves the registry invariant. -/
theorem addPlayer_inv (m : NetworkedPlayerManager) (peerId : String) (isHost : Bool) (now : ℚ)
    (h : managerInv m) : managerInv (m.addPlayer peerId isHost now) := by
  unfold NetworkedPlayerManager.addPlayer
  by_cases h1 : m.shouldCreateNetworkedPlayers = false
  · simp [h1, h]
  · by_cases h2 : m.localPeerId = some peerId
    · simp [h1, h2, h]
    · by_cases h3 : mapHas m.networkedPlayers peerId = true
      · simp [h1, h2, h3, h]
      · have h3f : mapHas m.networkedPlayers peerId = false := by
          simpa using h3
        obtain ⟨hnd, hloc⟩ := h
        rw [if_neg h1, if_neg h2, if_neg h3]
        rw [mapSet_of_not_has _ _ _ h3f]
        constructor
        · rw [List.map_append]
          rw [List.nodup_append]
          refine ⟨hnd, by simp, ?_⟩
          intro a ha hb
          simp only [List.map_cons, List.map_nil, List.mem_cons, List.not_mem_nil,
            or_false] at hb
          subst hb
          exact not_mem_keys_of_mapHas_false h3f ha
        · intro lid hlid
          rw [mapHas_eq_any_keys, List.map_append, List.any_append]
          have hl := hloc lid hlid
          rw [mapHas_eq_any_keys] at hl
          rw [hl]
          simp only [List.map_cons, List.map_nil, List.any_cons, List.any_nil,
            Bool.or_false, Bool.false_or]
          have : peerId ≠ lid := by
            intro he
            exact h2 (by rw [he]; exact hlid)
          simp [this]

/-- removePlayer preserves the registry invariant. -/
theorem removePlayer_inv (m : NetworkedPlayerManager) (peerId : String)
    (h : managerInv m) : managerInv (m.removePlayer peerId) := by
  unfold NetworkedPlayerManager.removePlayer
  obtain ⟨hnd, hloc⟩ := h
  cases hg : mapGet m.networkedPlayers peerId with
  | none => exact ⟨hnd, hloc⟩
  | some p =>
    have hsub : (mapDelete m.networkedPlayers peerId).Sublist m.networkedPlayers :=
      List.filter_sublist _
    constructor
    · exact hnd.sublist (hsub.map Prod.fst)
    · intro lid hlid
      exact mapHas_false_of_sublist hsub lid (hloc lid hlid)

/-- The per-frame manager update preserves the registry invariant: the
per-player tick keeps every key, the periodic cleanup only removes
entries. -/
theorem manager_update_inv (slerpE : Euler → Euler → ℚ → Euler) (m : NetworkedPlayerManager)
    (now deltaTime : ℚ) (h : managerInv m) : managerInv (m.update slerpE now deltaTime) := by
  unfold NetworkedPlayerManager.update
  by_cases h1 : m.shouldCreateNetworkedPlayers = false
  · simp [h1, h]
  · obtain ⟨hnd, hloc⟩ := h
    simp only [h1, if_false]
    unfold NetworkedPlayerManager.cleanupInactivePlayers
    have hkeys :
        ((m.networkedPlayers.map fun kv => (kv.1, kv.2.update slerpE now deltaTime)).map
          Prod.fst) = m.networkedPlayers.map Prod.fst := by
      rw [List.map_map]
      rfl
    have hticked :
        managerInv
          { m with
            networkedPlayers :=
              m.networkedPlayers.map fun kv => (kv.1, kv.2.update slerpE now deltaTime) } := by
      constructor
      · rw [hkeys]
        exact hnd
      · intro lid hlid
        rw [mapHas_eq_any_keys, hkeys, ← mapHas_eq_any_keys]
        exact hloc lid hlid
    obtain ⟨hnd2, hloc2⟩ := hticked
    by_cases h2 :
        (match m.lastCleanupTime with
          | none => true
          | some t => decide (10000 < now - t)) = true
    · simp only [h2, if_true]
      have hsub :
          ((m.networkedPlayers.map fun kv =>
              (kv.1, kv.2.update slerpE now deltaTime)).filter fun kv =>
                kv.2.isPlayerActive).Sublist
            (m.networkedPlayers.map fun kv => (kv.1, kv.2.update slerpE now deltaTime)) :=
        List.filter_sublist _
      constructor
      · exact hnd2.sublist (hsub.map Prod.fst)
      · intro lid hlid
        exact mapHas_false_of_sublist hsub lid (hloc2 lid hlid)
    · simp only [h2, if_false]
      exact ⟨hnd2, hloc2⟩

/-- updatePlayer preserves the registry invariant. -/
theorem updatePlayer_inv (m : NetworkedPlayerManager) (peerId : String)
    (state : Option Snapshot) (netIsBase : Bool) (netMyPeerId : String) (now : ℚ)
    (h : managerInv m) :
    managerInv (m.updatePlayer peerId state netIsBase netMyPeerId now) := by
  unfold NetworkedPlayerManager.updatePlayer
  by_cases h1 : m.shouldCreateNetworkedPlayers = false
  · simp [h1, h]
  · simp only [h1, if_false]
    cases hg : mapGet m.networkedPlayers peerId with
    | some p =>
      exact managerInv_mapSet_has m peerId _ h (mapHas_of_mapGet_some hg)
    | none =>
      have hadd := addPlayer_inv m peerId (netIsBase && peerId != netMyPeerId) now h
      cases hg2 :
          mapGet (m.addPlayer peerId (netIsBase && peerId != netMyPeerId)
            now).networkedPlayers peerId with
      | some newPlayer =>
        exact managerInv_mapSet_has _ peerId _ hadd (mapHas_of_mapGet_some hg2)
      | none => exact hadd

/-- The freshly constructed registry satisfies the invariant. -/
theorem create_inv (networkInitialized : Bool) (myPeerId : String) :
    managerInv (NetworkedPlayerManager.create networkInitialized myPeerId) := by
  cases networkInitialized <;>
    exact ⟨List.nodup_nil, fun lid _ => rfl⟩

/-- Every operation sequence preserves the registry invariant. -/
theorem applyOps_inv (slerpE : Euler → Euler → ℚ → Euler) (m : NetworkedPlayerManager)
    (ops : List ManagerOp) (h : managerInv m) : managerInv (applyOps slerpE m ops) := by
  induction ops generalizing m with
  | nil => exact h
  | cons op rest ih =>
    apply ih
    cases op with
    | add peerId isHost now => exact addPlayer_inv m peerId isHost now h
    | remove peerId => exact removePlayer_inv m peerId h
    | updateP peerId state netIsBase netMyPeerId now =>
      exact updatePlayer_inv m peerId state netIsBase netMyPeerId now h
    | tick now deltaTime => exact manager_update_inv slerpE m now deltaTime h

/-- C4: through every sequence of addPlayer, removePlayer, updatePlayer
and per-frame update calls starting from a freshly constructed registry,
the registry tracks at most one replica per peer id and never one for
the local peer id; moreover addPlayer on an already tracked peer id or
on the local peer id leaves the registry completely unchanged. -/
theorem c4_registry_uniqueness (slerpE : Euler → Euler → ℚ → Euler)
    (networkInitialized : Bool) (myPeerId : String) (ops : List ManagerOp) :
    managerInv
      (applyOps slerpE (NetworkedPlayerManager.create networkInitialized myPeerId) ops) ∧
    (∀ (m : NetworkedPlayerManager) (peerId : String) (isHost : Bool) (now : ℚ),
      mapHas m.networkedPlayers peerId = true ∨ m.localPeerId = some peerId →
      m.addPlayer peerId isHost now = m) := by
  constructor
  · exact applyOps_inv slerpE _ ops (create_inv networkInitialized myPeerId)
  · intro m peerId isHost now h
    unfold NetworkedPlayerManager.addPlayer
    by_cases h1 : m.shouldCreateNetworkedPlayers = false
    · simp [h1]
    · rcases h with h | h
      · by_cases h2 : m.localPeerId = some peerId
        · simp [h1, h2]
        · simp [h1, h2, h]
      · simp [h1, h]

/-- Witness for c4_registry_uniqueness: the invariant after a concrete
add, and the no-op of re-adding the same peer id. -/
theorem c4_registry_uniqueness_witness :
    mapHas ((NetworkedPlayerManager.create true "me").addPlayer "a" false
        0).networkedPlayers "a" = true ∧
    managerInv (applyOps (fun c _ _ => c) (NetworkedPlayerManager.create true "me")
      [ManagerOp.add "a" false 0]) ∧
    ((NetworkedPlayerManager.create true "me").addPlayer "a" false 0).addPlayer "a" true 5 =
      (NetworkedPlayerManager.create true "me").addPlayer "a" false 0 := by
  have hhas : mapHas ((NetworkedPlayerManager.create true "me").addPlayer "a" false
      0).networkedPlayers "a" = true := by decide
  exact ⟨hhas,
    (c4_registry_uniqueness (fun c _ _ => c) true "me" [ManagerOp.add "a" false 0]).1,
    (c4_registry_uniqueness (fun c _ _ => c) true "me" []).2 _ "a" true 5 (Or.inl hhas)⟩

/-- In single-simulation mode, one registry operation is the identity as
long as the registry also tracks nobody (removePlayer carries no mode
gate in the source but cannot remove from an empty map). -/
theorem applyOp_single_mode (slerpE : Euler → Euler → ℚ → Euler)
    (m : NetworkedPlayerManager) (op : ManagerOp)
    (hmode : m.isMultiplayerMode = false) (hempty : m.networkedPlayers = []) :
    applyOp slerpE m op = m := by
  cases op with
  | add peerId isHost now =>
    simp [applyOp, NetworkedPlayerManager.addPlayer,
      NetworkedPlayerManager.shouldCreateNetworkedPlayers, hmode]
  | remove peerId =>
    simp [applyOp, NetworkedPlayerManager.removePlayer, hempty, mapGet]
  | updateP peerId state netIsBase netMyPeerId now =>
    simp [applyOp, NetworkedPlayerManager.updatePlayer,
      NetworkedPlayerManager.shouldCreateNetworkedPlayers, hmode]
  | tick now deltaTime =>
    simp [applyOp, NetworkedPlayerManager.update,
      NetworkedPlayerManager.shouldCreateNetworkedPlayers, hmode]

/-- A registry constructed in single-simulation mode is a fixed point of
every operation sequence. -/
theorem applyOps_single_mode (slerpE : Euler → Euler → ℚ → Euler) (myPeerId : String)
    (ops : List ManagerOp) :
    applyOps slerpE (NetworkedPlayerManager.create false myPeerId) ops =
      NetworkedPlayerManager.create false myPeerId := by
  induction ops with
  | nil => rfl
  | cons op rest ih =>
    show applyOps slerpE
      (applyOp slerpE (NetworkedPlayerManager.create false myPeerId) op) rest = _
    rw [applyOp_single_mode slerpE _ op rfl rfl]
    exact ih

/-- C9: in single-simulation mode every registry operation named by the
claim is a no-op - addPlayer creates no entity, updatePlayer and the
per-frame update return the registry unchanged, getAllPositions is
always empty - and starting from construction the registry holds zero
entities through every operation sequence. -/
theorem c9_single_mode_noop (slerpE : Euler → Euler → ℚ → Euler) :
    (∀ m : NetworkedPlayerManager, m.isMultiplayerMode = false →
      (∀ (peerId : String) (isHost : Bool) (now : ℚ), m.addPlayer peerId isHost now = m) ∧
      (∀ (peerId : String) (state : Option Snapshot) (netIsBase : Bool)
        (netMyPeerId : String) (now : ℚ),
        m.updatePlayer peerId state netIsBase netMyPeerId now = m) ∧
      (∀ now deltaTime : ℚ, m.update slerpE now deltaTime = m) ∧
      m.getAllPositions = []) ∧
    (∀ (myPeerId : String) (ops : List ManagerOp),
      (applyOps slerpE (NetworkedPlayerManager.create false myPeerId) ops).networkedPlayers =
        []) := by
  constructor
  · intro m hmode
    refine ⟨?_, ?_, ?_, ?_⟩
    · intro peerId isHost now
      simp [NetworkedPlayerManager.addPlayer,
        NetworkedPlayerManager.shouldCreateNetworkedPlayers, hmode]
    · intro peerId state netIsBase netMyPeerId now
      simp [NetworkedPlayerManager.updatePlayer,
        NetworkedPlayerManager.shouldCreateNetworkedPlayers, hmode]
    · intro now deltaTime
      simp [NetworkedPlayerManager.update,
        NetworkedPlayerManager.shouldCreateNetworkedPlayers, hmode]
    · simp [NetworkedPlayerManager.getAllPositions,
        NetworkedPlayerManager.shouldCreateNetworkedPlayers, hmode]
  · intro myPeerId ops
    rw [applyOps_single_mode]
    rfl

/-- Witness for c9_single_mode_noop at a concrete single-mode registry
and a concrete operation sequence. -/
theorem c9_single_mode_noop_witness :
    (NetworkedPlayerManager.create false "solo").isMultiplayerMode = false ∧
    (NetworkedPlayerManager.create false "solo").addPlayer "a" false 0 =
      NetworkedPlayerManager.create false "solo" ∧
    (NetworkedPlayerManager.create false "solo").getAllPositions = [] ∧
    (applyOps (fun c _ _ => c) (NetworkedPlayerManager.create false "solo")
        [ManagerOp.add "a" false 0, ManagerOp.tick 16 (1 / 60)]).networkedPlayers = [] := by
  have hmode : (NetworkedPlayerManager.create false "solo").isMultiplayerMode = false := rfl
  exact ⟨hmode,
    ((c9_single_mode_noop (fun c _ _ => c)).1 _ hmode).1 "a" false 0,
    ((c9_single_mode_noop (fun c _ _ => c)).1 _ hmode).2.2.2,
    (c9_single_mode_noop (fun c _ _ => c)).2 "solo"
      [ManagerOp.add "a" false 0, ManagerOp.tick 16 (1 / 60)]⟩

/-- Consecutive send times emitted after a send at time l are each more
than 100 ms apart, chained from l. -/
theorem sendTimesAux_chain (times : List ℚ) :
    ∀ l : ℚ, List.Chain (fun a b => 100 < b - a) l (sendTimesAux (some l) times) := by
  induction times with
  | nil => intro l; exact List.Chain.nil
  | cons now rest ih =>
    intro l
    by_cases h : 100 < now - l
    · simp only [sendTimesAux, throttleStep, h, if_true]
      exact List.Chain.cons h (ih now)
    · simp only [sendTimesAux, throttleStep, h, if_false]
      exact ih l

/-- C6: the broadcast throttle.  First conjunct: over any run of attempt
times, successive transport sends are always more than 100 ms apart.
Second and third conjunct: attempting a broadcast on every tick of one
second at 60 ticks per second, with eligibility holding throughout,
fires the transport at least once and at most 10 times. -/
theorem sendTimesAux_subset : ∀ (times : List ℚ) (last : Option ℚ) (x : ℚ),
    x ∈ sendTimesAux last times → x ∈ times := by
  intro times
  induction times with
  | nil =>
    intro last x hx
    simp [sendTimesAux] at hx
  | cons now rest ih =>
    intro last x hx
    cases last with
    | none =>
      simp only [sendTimesAux, throttleStep] at hx
      rcases List.mem_cons.mp hx with h | h
      · exact List.mem_cons.mpr (Or.inl h)
      · exact List.mem_cons.mpr (Or.inr (ih _ x h))
    | some l =>
      by_cases h : 100 < now - l
      · simp only [sendTimesAux, throttleStep, h, if_true] at hx
        rcases List.mem_cons.mp hx with h2 | h2
        · exact List.mem_cons.mpr (Or.inl h2)
        · exact List.mem_cons.mpr (Or.inr (ih _ x h2))
      · simp only [sendTimesAux, throttleStep, h, if_false] at hx
        exact List.mem_cons.mpr (Or.inr (ih _ x hx))

/-- A gap chain starting at a and staying below hi has few elements:
each link adds more than 100. -/
theorem chain_gap_le (hi : ℚ) : ∀ (xs : List ℚ) (a : ℚ),
    List.Chain (fun u v => 100 < v - u) a xs → a ≤ hi → (∀ x ∈ xs, x ≤ hi) →
    a + 100 * xs.length ≤ hi := by
  intro xs
  induction xs with
  | nil =>
    intro a _ ha _
    simpa using ha
  | cons b tail ih =>
    intro a hchain ha hbound
    cases hchain with
    | cons hab htail =>
      have hb : b ≤ hi := hbound b (List.mem_cons_self b tail)
      have hihb := ih b htail hb (fun x hx => hbound x (List.mem_cons.mpr (Or.inr hx)))
      have hlen : ((b :: tail).length : ℚ) = (tail.length : ℚ) + 1 := by
        push_cast [List.length_cons]
        ring
      rw [hlen]
      nlinarith

/-- Every tick time of the one-second 60 Hz run lies in [0, 2950/3]. -/
theorem sixtyTickTimes_bounds : ∀ x ∈ sixtyTickTimes, 0 ≤ x ∧ x ≤ 2950 / 3 := by
  intro x hx
  rw [sixtyTickTimes, List.mem_map] at hx
  obtain ⟨k, hk, rfl⟩ := hx
  rw [List.mem_range] at hk
  have hk59 : (k : ℚ) ≤ 59 := by exact_mod_cast Nat.lt_succ_iff.mp hk
  have hk0 : (0 : ℚ) ≤ (k : ℚ) := by positivity
  constructor
  · nlinarith
  · nlinarith

/-- C6: the broadcast throttle.  First conjunct: over any run of attempt
times, successive transport sends are always more than 100 ms apart.
Second and third conjunct: attempting a broadcast on every tick of one
second at 60 ticks per second, with eligibility holding throughout,
fires the transport at least once and at most 10 times. -/
theorem c6_broadcast_throttle :
    (∀ times : List ℚ, (sendTimes times).Chain' (fun a b => 100 < b - a)) ∧
    1 ≤ (sendTimes sixtyTickTimes).length ∧ (sendTimes sixtyTickTimes).length ≤ 10 := by
  refine ⟨?_, ?_, ?_⟩
  · intro times
    cases times with
    | nil => exact List.chain'_nil
    | cons now rest =>
      show List.Chain' _ (sendTimesAux none (now :: rest))
      simp only [sendTimesAux, throttleStep]
      exact sendTimesAux_chain rest now
  · cases hst : sixtyTickTimes with
    | nil =>
      have hlen := congrArg List.length hst
      simp [sixtyTickTimes] at hlen
    | cons t rest =>
      show 1 ≤ (sendTimesAux none (t :: rest)).length
      simp [sendTimesAux, throttleStep]
  · cases hst : sixtyTickTimes with
    | nil => simp [sendTimes, sendTimesAux, hst]
    | cons t rest =>
      have hbounds := sixtyTickTimes_bounds
      rw [hst] at hbounds
      have ht := hbounds t (List.mem_cons_self t rest)
      have hxs : ∀ x ∈ sendTimesAux (some t) rest, x ≤ 2950 / 3 := fun x hx =>
        (hbounds x (List.mem_cons.mpr (Or.inr (sendTimesAux_subset rest _ x hx)))).2
      have hlen := chain_gap_le (2950 / 3) (sendTimesAux (some t) rest) t
        (sendTimesAux_chain rest t) ht.2 hxs
      show (sendTimesAux none (t :: rest)).length ≤ 10
      have hform : sendTimesAux none (t :: rest) = t :: sendTimesAux (some t) rest := rfl
      rw [hform, List.length_cons]
      by_contra hc
      push_neg at hc
      have h10 : 10 ≤ (sendTimesAux (some t) rest).length := by omega
      have h10q : (10 : ℚ) ≤ ((sendTimesAux (some t) rest).length : ℚ) := by
        exact_mod_cast h10
      nlinarith [ht.1]

/-- C5: the surface height is a pure function of position, simulation
time and weather state: two calls with identical arguments return the
identical value for every choice of the transcendental primitives, so
the same inputs yield the same output on any peer; moreover the
independent copy of the same formula in the ocean-mesh loop of game.js
produces exactly the same surface height, so a ship placed by
shipPawn-style sampling sits on the surface every peer renders. -/
theorem c5_height_deterministic (msin mcos msqrt : ℚ → ℚ) (t t2 : ℚ) (w w2 : WaveState)
    (x x2 z z2 : ℚ) (hx : x = x2) (hz : z = z2) (ht : t = t2) (hw : w = w2) :
    calculateOceanHeight msin mcos msqrt t w x z =
      calculateOceanHeight msin mcos msqrt t2 w2 x2 z2 ∧
    calculateOceanHeight msin mcos msqrt t w x z =
      gameOceanSurfaceHeight msin mcos msqrt t w x z := by
  subst hx hz ht hw
  constructor
  · rfl
  · unfold calculateOceanHeight gameOceanSurfaceHeight
    ring

/-- Witness for c5_height_deterministic with identity primitives, a
storm in range, and concrete coordinates. -/
theorem c5_height_deterministic_witness :
    ((3 : ℚ) = 3 ∧ (4 : ℚ) = 4 ∧ (5 : ℚ) = 5 ∧
      WaveState.mk 1 1 [Storm.mk 0 0 50 1 2] = WaveState.mk 1 1 [Storm.mk 0 0 50 1 2]) ∧
    calculateOceanHeight id id id 5 (WaveState.mk 1 1 [Storm.mk 0 0 50 1 2]) 3 4 =
      gameOceanSurfaceHeight id id id 5 (WaveState.mk 1 1 [Storm.mk 0 0 50 1 2]) 3 4 := by
  exact ⟨⟨rfl, rfl, rfl, rfl⟩,
    (c5_height_deterministic id id id 5 5 (WaveState.mk 1 1 [Storm.mk 0 0 50 1 2])
      (WaveState.mk 1 1 [Storm.mk 0 0 50 1 2]) 3 3 4 4 rfl rfl rfl rfl).2⟩

/-- Euler angle triple over the reals, for the trigonometric analysis
of interpolateEuler (order XYZ, the THREE.Euler default used by the
replica transforms). -/
structure EulerR where
  x : ℝ
  y : ℝ
  z : ℝ

/-- Quaternion with the field layout of THREE.Quaternion. -/
structure Quat where
  x : ℝ
  y : ℝ
  z : ℝ
  w : ℝ

/-- Quaternion dot product, as computed inline by THREE
Quaternion.slerp. -/
def Quat.dot (a b : Quat) : ℝ :=
  a.w * b.w + a.x * b.x + a.y * b.y + a.z * b.z

/-- Squared length of a quaternion. -/
def Quat.normSq (a : Quat) : ℝ :=
  a.dot a

/-- Embedding of THREE Quaternion.normalize: a zero quaternion becomes
the identity, otherwise every component is divided by the length. -/
noncomputable def Quat.normalize (a : Quat) : Quat :=
  let l := Real.sqrt a.normSq
  if l = 0 then ⟨0, 0, 0, 1⟩ else ⟨a.x / l, a.y / l, a.z / l, a.w / l⟩

/-- Embedding of THREE r134 Quaternion.setFromEuler for order XYZ, the
conversion interpolateEuler applies to the current and target Euler
angles. -/
noncomputable def setFromEulerXYZ (e : EulerR) : Quat :=
  let c1 := Real.cos (e.x / 2)
  let c2 := Real.cos (e.y / 2)
  let c3 := Real.cos (e.z / 2)
  let s1 := Real.sin (e.x / 2)
  let s2 := Real.sin (e.y / 2)
  let s3 := Real.sin (e.z / 2)
  ⟨s1 * c2 * c3 + c1 * s2 * s3,
   c1 * s2 * c3 - s1 * c2 * s3,
   c1 * c2 * s3 + s1 * s2 * c3,
   c1 * c2 * c3 - s1 * s2 * s3⟩

/-- The two-argument arctangent as computed by Math.atan2 (only the
x >= 0 region is ever reached by the slerp below). -/
noncomputable def atan2 (y x : ℝ) : ℝ :=
  if 0 < x then Real.arctan (y / x)
  else if x < 0 then
    (if 0 ≤ y then Real.arctan (y / x) + Real.pi else Real.arctan (y / x) - Real.pi)
  else if 0 < y then Real.pi / 2
  else if y < 0 then -(Real.pi / 2)
  else 0

/-- The float unit of least precision at 1, Number.EPSILON of
JavaScript, used by the near-parallel guard of slerp. -/
noncomputable def machineEpsilon : ℝ :=
  1 / 2 ^ 52

/-- Embedding of THREE r134 Quaternion.slerp(qb, t): early exits at
t = 0 and t = 1, antipodal flip of qb when the dot product is negative,
identity exit when the (flipped) dot reaches 1, normalized linear
interpolation when the squared sine of the half angle is below
Number.EPSILON, and otherwise the spherical interpolation through the
half angle. -/
noncomputable def Quat.slerp (q : Quat) (qb : Quat) (t : ℝ) : Quat :=
  if t = 0 then q
  else if t = 1 then qb
  else
    let cosHalfTheta0 := q.w * qb.w + q.x * qb.x + q.y * qb.y + q.z * qb.z
    let qb2 := if cosHalfTheta0 < 0 then Quat.mk (-qb.x) (-qb.y) (-qb.z) (-qb.w) else qb
    let cosHalfTheta := if cosHalfTheta0 < 0 then -cosHalfTheta0 else cosHalfTheta0
    if 1 ≤ cosHalfTheta then q
    else
      let sqrSinHalfTheta := 1 - cosHalfTheta * cosHalfTheta
      if sqrSinHalfTheta ≤ machineEpsilon then
        Quat.normalize ⟨(1 - t) * q.x + t * qb2.x, (1 - t) * q.y + t * qb2.y,
          (1 - t) * q.z + t * qb2.z, (1 - t) * q.w + t * qb2.w⟩
      else
        let sinHalfTheta := Real.sqrt sqrSinHalfTheta
        let halfTheta := atan2 sinHalfTheta cosHalfTheta
        let ratioA := Real.sin ((1 - t) * halfTheta) / sinHalfTheta
        let ratioB := Real.sin (t * halfTheta) / sinHalfTheta
        ⟨q.x * ratioA + qb2.x * ratioB, q.y * ratioA + qb2.y * ratioB,
         q.z * ratioA + qb2.z * ratioB, q.w * ratioA + qb2.w * ratioB⟩

/-- The angle of the relative rotation between the orientations two
unit quaternions represent, in radians: the angular distance the claim
speaks about. -/
noncomputable def Quat.angularDistance (a b : Quat) : ℝ :=
  2 * Real.arccos |a.dot b|

/-- The quaternion interpolateEuler computes: current and target Euler
angles are converted to quaternions and slerped by alpha.  The final
statement of the source converts this quaternion back to Euler angles
for storage, an orientation-preserving change of representation, so the
angular motion of the tick is measured on this quaternion. -/
noncomputable def interpolateEulerQuat (current target : EulerR) (alpha : ℝ) : Quat :=
  (setFromEulerXYZ current).slerp (setFromEulerXYZ target) alpha

/-- Quaternions produced from Euler angles are unit quaternions. -/
theorem setFromEulerXYZ_normSq (e : EulerR) : (setFromEulerXYZ e).normSq = 1 := by
  have h1 := Real.sin_sq_add_cos_sq (e.x / 2)
  have h2 := Real.sin_sq_add_cos_sq (e.y / 2)
  have h3 := Real.sin_sq_add_cos_sq (e.z / 2)
  simp only [setFromEulerXYZ, Quat.normSq, Quat.dot]
  calc
    _ = (Real.sin (e.x / 2) ^ 2 + Real.cos (e.x / 2) ^ 2) *
          ((Real.sin (e.y / 2) ^ 2 + Real.cos (e.y / 2) ^ 2) *
            (Real.sin (e.z / 2) ^ 2 + Real.cos (e.z / 2) ^ 2)) := by ring
    _ = 1 := by rw [h1, h2, h3]; ring

/-- The identity orientation converts to the identity quaternion. -/
theorem setFromEulerXYZ_zero : setFromEulerXYZ ⟨0, 0, 0⟩ = ⟨0, 0, 0, 1⟩ := by
  simp [setFromEulerXYZ]

/-- A yaw of pi radians converts to the quaternion (0, 1, 0, 0). -/
theorem setFromEulerXYZ_yaw_pi : setFromEulerXYZ ⟨0, Real.pi, 0⟩ = ⟨0, 1, 0, 0⟩ := by
  simp [setFromEulerXYZ, Real.cos_pi_div_two, Real.sin_pi_div_two]

/-- Evaluation of the slerp between the identity and a yaw of pi at
parameter 6 * (1/60), the rotation lerp factor of one 60 Hz tick. -/
theorem c8_slerp_eval :
    Quat.slerp ⟨0, 0, 0, 1⟩ ⟨0, 1, 0, 0⟩ (6 * (1 / 60)) =
      ⟨0, Real.sin (Real.pi / 20), 0, Real.cos (Real.pi / 20)⟩ := by
  rw [Quat.slerp]
  rw [if_neg (by norm_num : ¬ (6 * (1 / 60 : ℝ)) = 0),
      if_neg (by norm_num : ¬ (6 * (1 / 60 : ℝ)) = 1)]
  norm_num [atan2, machineEpsilon]
  constructor
  · congr 1
    ring
  · rw [show (9 / 10 : ℝ) * (Real.pi / 2) = Real.pi / 2 - Real.pi / 20 by ring,
      Real.sin_pi_div_two_sub]

/-- Counterexample to the literal per-tick bound of the claim: with the
source rates (rotationLerpSpeed 6.0, a 60 Hz tick, so alpha = 0.1) and
a target yaw of pi, the orientation travels pi/10 radians in one tick,
which exceeds rate * deltaTime = 0.1.  Slerp covers the fraction alpha
of the angular distance, not at most alpha radians. -/
theorem c8_rate_bound_counterexample :
    6 * (1 / 60 : ℝ) <
      (setFromEulerXYZ ⟨0, 0, 0⟩).angularDistance
        (interpolateEulerQuat ⟨0, 0, 0⟩ ⟨0, Real.pi, 0⟩ (6 * (1 / 60))) := by
  rw [interpolateEulerQuat, setFromEulerXYZ_zero, setFromEulerXYZ_yaw_pi, c8_slerp_eval]
  rw [Quat.angularDistance]
  have hdot : Quat.dot ⟨0, 0, 0, 1⟩ ⟨0, Real.sin (Real.pi / 20), 0, Real.cos (Real.pi / 20)⟩ =
      Real.cos (Real.pi / 20) := by
    simp [Quat.dot]
  rw [hdot]
  have hpi := Real.pi_gt_three
  have hnonneg : 0 ≤ Real.cos (Real.pi / 20) := by
    apply Real.cos_nonneg_of_mem_Icc
    constructor
    · linarith
    · linarith
  rw [abs_of_nonneg hnonneg]
  rw [Real.arccos_cos (by linarith) (by linarith)]
  linarith

/-- The atan2 call of the spherical branch computes the arccosine of
the clamped dot product. -/
theorem atan2_sqrt_one_sub_sq {c : ℝ} (h0 : 0 ≤ c) (h1 : c < 1) :
    atan2 (Real.sqrt (1 - c * c)) c = Real.arccos c := by
  rcases lt_or_eq_of_le h0 with h | h
  · rw [atan2, if_pos h, Real.arccos_eq_arctan h]
    congr 2
    ring
  · subst h
    rw [atan2]
    rw [if_neg (lt_irrefl 0), if_neg (lt_irrefl 0)]
    rw [show (1 : ℝ) - 0 * 0 = 1 by ring, Real.sqrt_one]
    rw [if_pos one_pos, Real.arccos_zero]

/-- Dot product against a linear combination of the endpoints. -/
theorem dot_linear_combo (q0 e : Quat) (rA rB : ℝ) :
    Quat.dot q0 ⟨q0.x * rA + e.x * rB, q0.y * rA + e.y * rB, q0.z * rA + e.z * rB,
      q0.w * rA + e.w * rB⟩ = rA * q0.normSq + rB * Quat.dot q0 e := by
  simp only [Quat.dot, Quat.normSq]
  ring

/-- The angular distance travelled by the spherical combination with
ratios sin((1-t) h)/sin h and sin(t h)/sin h toward an endpoint at dot
c = cos h is exactly the fraction t of the full angle 2h. -/
theorem slerp_branch_dist (q0 e : Quat) (t c : ℝ)
    (hq0 : q0.normSq = 1) (hdot : Quat.dot q0 e = c)
    (hc0 : 0 ≤ c) (hc1 : c < 1) (ht0 : 0 ≤ t) (ht1 : t ≤ 1) :
    Quat.angularDistance q0
      ⟨q0.x * (Real.sin ((1 - t) * Real.arccos c) / Real.sin (Real.arccos c)) +
          e.x * (Real.sin (t * Real.arccos c) / Real.sin (Real.arccos c)),
        q0.y * (Real.sin ((1 - t) * Real.arccos c) / Real.sin (Real.arccos c)) +
          e.y * (Real.sin (t * Real.arccos c) / Real.sin (Real.arccos c)),
        q0.z * (Real.sin ((1 - t) * Real.arccos c) / Real.sin (Real.arccos c)) +
          e.z * (Real.sin (t * Real.arccos c) / Real.sin (Real.arccos c)),
        q0.w * (Real.sin ((1 - t) * Real.arccos c) / Real.sin (Real.arccos c)) +
          e.w * (Real.sin (t * Real.arccos c) / Real.sin (Real.arccos c))⟩ =
      t * (2 * Real.arccos c) := by
  have hh0 : 0 < Real.arccos c := Real.arccos_pos.mpr hc1
  have hhle : Real.arccos c ≤ Real.pi / 2 := Real.arccos_le_pi_div_two.mpr hc0
  have hcos : Real.cos (Real.arccos c) = c := Real.cos_arccos (by linarith) hc1.le
  have hsinpos : 0 < Real.sin (Real.arccos c) :=
    Real.sin_pos_of_pos_of_lt_pi hh0 (by linarith [Real.pi_pos])
  rw [Quat.angularDistance, dot_linear_combo, hq0, hdot]
  have key : Real.sin ((1 - t) * Real.arccos c) / Real.sin (Real.arccos c) * 1 +
      Real.sin (t * Real.arccos c) / Real.sin (Real.arccos c) * c =
        Real.cos (t * Real.arccos c) := by
    rw [show (1 - t) * Real.arccos c = Real.arccos c - t * Real.arccos c by ring,
      Real.sin_sub, hcos]
    field_simp
    ring
  rw [key]
  have hth0 : 0 ≤ t * Real.arccos c := mul_nonneg ht0 hh0.le
  have hthle : t * Real.arccos c ≤ Real.pi / 2 :=
    le_trans (mul_le_of_le_one_left hh0.le ht1) hhle
  have hcosnn : 0 ≤ Real.cos (t * Real.arccos c) :=
    Real.cos_nonneg_of_mem_Icc ⟨by linarith [Real.pi_pos], hthle⟩
  rw [abs_of_nonneg hcosnn, Real.arccos_cos hth0 (by linarith [Real.pi_pos])]
  ring

/-- In the spherical branch (parameter strictly between 0 and 1, dot
strictly below 1 in absolute value, and the squared sine of the half
angle above the epsilon guard), the slerp of the source reduces to the
textbook spherical combination of the two endpoints after the antipodal
flip. -/
theorem slerp_spherical_eq (q0 q1 : Quat) (t : ℝ) (hne0 : t ≠ 0) (hne1 : t ≠ 1)
    (habs : |Quat.dot q0 q1| < 1)
    (heps : machineEpsilon < 1 - Quat.dot q0 q1 * Quat.dot q0 q1) :
    q0.slerp q1 t =
      ⟨q0.x * (Real.sin ((1 - t) * Real.arccos |Quat.dot q0 q1|) /
            Real.sin (Real.arccos |Quat.dot q0 q1|)) +
          (if Quat.dot q0 q1 < 0 then -q1.x else q1.x) *
            (Real.sin (t * Real.arccos |Quat.dot q0 q1|) /
              Real.sin (Real.arccos |Quat.dot q0 q1|)),
        q0.y * (Real.sin ((1 - t) * Real.arccos |Quat.dot q0 q1|) /
            Real.sin (Real.arccos |Quat.dot q0 q1|)) +
          (if Quat.dot q0 q1 < 0 then -q1.y else q1.y) *
            (Real.sin (t * Real.arccos |Quat.dot q0 q1|) /
              Real.sin (Real.arccos |Quat.dot q0 q1|)),
        q0.z * (Real.sin ((1 - t) * Real.arccos |Quat.dot q0 q1|) /
            Real.sin (Real.arccos |Quat.dot q0 q1|)) +
          (if Quat.dot q0 q1 < 0 then -q1.z else q1.z) *
            (Real.sin (t * Real.arccos |Quat.dot q0 q1|) /
              Real.sin (Real.arccos |Quat.dot q0 q1|)),
        q0.w * (Real.sin ((1 - t) * Real.arccos |Quat.dot q0 q1|) /
            Real.sin (Real.arccos |Quat.dot q0 q1|)) +
          (if Quat.dot q0 q1 < 0 then -q1.w else q1.w) *
            (Real.sin (t * Real.arccos |Quat.dot q0 q1|) /
              Real.sin (Real.arccos |Quat.dot q0 q1|))⟩ := by
  have hsq : ¬ (1 - |Quat.dot q0 q1| * |Quat.dot q0 q1| ≤ machineEpsilon) := by
    rw [abs_mul_abs_self]
    linarith
  have hone : ¬ (1 ≤ |Quat.dot q0 q1|) := not_le.mpr habs
  have hs : Real.sqrt (1 - |Quat.dot q0 q1| * |Quat.dot q0 q1|) =
      Real.sin (Real.arccos |Quat.dot q0 q1|) := by
    rw [Real.sin_arccos]
    congr 1
    ring
  have hat : atan2 (Real.sqrt (1 - |Quat.dot q0 q1| * |Quat.dot q0 q1|))
      |Quat.dot q0 q1| = Real.arccos |Quat.dot q0 q1| :=
    atan2_sqrt_one_sub_sq (abs_nonneg _) habs
  rw [Quat.slerp]
  rw [if_neg hne0, if_neg hne1]
  rw [show q0.w * q1.w + q0.x * q1.x + q0.y * q1.y + q0.z * q1.z = Quat.dot q0 q1 from rfl]
  by_cases hd : Quat.dot q0 q1 < 0
  · have habs2 : |Quat.dot q0 q1| = -Quat.dot q0 q1 := abs_of_neg hd
    simp only [if_pos hd]
    rw [← habs2]
    rw [if_neg hone, if_neg hsq, hat, hs]
  · have habs2 : |Quat.dot q0 q1| = Quat.dot q0 q1 := abs_of_nonneg (not_lt.mp hd)
    simp only [if_neg hd]
    conv_lhs => rw [← habs2]
    rw [if_neg hone, if_neg hsq, hat, hs]

/-- For unit quaternions outside the degenerate epsilon branch, one
slerp step travels exactly the fraction t of the angular distance to
the target, and hence at most t * pi. -/
theorem slerp_angularDistance_eq (q0 q1 : Quat) (t : ℝ)
    (hq0 : q0.normSq = 1) (_hq1 : q1.normSq = 1)
    (ht0 : 0 ≤ t) (ht1 : t ≤ 1)
    (hnd : machineEpsilon < 1 - Quat.dot q0 q1 * Quat.dot q0 q1) :
    q0.angularDistance (q0.slerp q1 t) = t * q0.angularDistance q1 ∧
    q0.angularDistance (q0.slerp q1 t) ≤ t * Real.pi := by
  have heps : (0 : ℝ) < machineEpsilon := by
    rw [machineEpsilon]
    positivity
  have habs : |Quat.dot q0 q1| < 1 := by
    nlinarith [abs_nonneg (Quat.dot q0 q1), abs_mul_abs_self (Quat.dot q0 q1)]
  have hta : Real.arccos |Quat.dot q0 q1| ≤ Real.pi / 2 :=
    Real.arccos_le_pi_div_two.mpr (abs_nonneg _)
  by_cases hz : t = 0
  · subst hz
    have hslerp : q0.slerp q1 0 = q0 := by rw [Quat.slerp, if_pos rfl]
    have hone : Quat.dot q0 q0 = 1 := hq0
    rw [hslerp]
    constructor
    · rw [Quat.angularDistance, hone]
      simp [Real.arccos_one]
    · rw [Quat.angularDistance, hone]
      simp [Real.arccos_one]
  by_cases ho : t = 1
  · subst ho
    have hslerp : q0.slerp q1 1 = q1 := by
      rw [Quat.slerp, if_neg one_ne_zero, if_pos rfl]
    rw [hslerp]
    constructor
    · ring
    · rw [Quat.angularDistance, one_mul]
      linarith
  rw [slerp_spherical_eq q0 q1 t hz ho habs hnd]
  by_cases hd : Quat.dot q0 q1 < 0
  · simp only [if_pos hd]
    have hdot2 : Quat.dot q0 ⟨-q1.x, -q1.y, -q1.z, -q1.w⟩ = |Quat.dot q0 q1| := by
      rw [abs_of_neg hd]
      simp only [Quat.dot]
      ring
    have hmain := slerp_branch_dist q0 ⟨-q1.x, -q1.y, -q1.z, -q1.w⟩ t |Quat.dot q0 q1|
      hq0 hdot2 (abs_nonneg _) habs ht0 ht1
    dsimp only at hmain
    rw [hmain]
    constructor
    · rw [Quat.angularDistance]
    · have h2 : 2 * Real.arccos |Quat.dot q0 q1| ≤ Real.pi := by linarith
      exact mul_le_mul_of_nonneg_left h2 ht0
  · simp only [if_neg hd]
    have hdot2 : Quat.dot q0 q1 = |Quat.dot q0 q1| :=
      (abs_of_nonneg (not_lt.mp hd)).symm
    have hmain := slerp_branch_dist q0 q1 t |Quat.dot q0 q1|
      hq0 hdot2 (abs_nonneg _) habs ht0 ht1
    rw [hmain]
    constructor
    · rw [Quat.angularDistance]
    · have h2 : 2 * Real.arccos |Quat.dot q0 q1| ≤ Real.pi := by linarith
      exact mul_le_mul_of_nonneg_left h2 ht0

/-- C8 amended: orientation is interpolated by quaternion slerp of the
converted Euler angles (never per-axis angle lerp), and outside the
float-epsilon degenerate branch one tick travels exactly the fraction
rate * deltaTime of the angular distance between the current and target
orientations - hence at most rate * deltaTime * pi, and without any
discontinuous jump when the target crosses the -pi/pi boundary, where
the raw Euler difference is large but the angular distance is small.
The literal bound "at most rate * deltaTime radians" of the claim is
refuted by c8_rate_bound_counterexample. -/
theorem c8_slerp_fraction_amended (cur tgt : EulerR) (t : ℝ)
    (ht0 : 0 ≤ t) (ht1 : t ≤ 1)
    (hnd : machineEpsilon <
      1 - Quat.dot (setFromEulerXYZ cur) (setFromEulerXYZ tgt) *
        Quat.dot (setFromEulerXYZ cur) (setFromEulerXYZ tgt)) :
    (setFromEulerXYZ cur).angularDistance (interpolateEulerQuat cur tgt t) =
      t * (setFromEulerXYZ cur).angularDistance (setFromEulerXYZ tgt) ∧
    (setFromEulerXYZ cur).angularDistance (interpolateEulerQuat cur tgt t) ≤
      t * Real.pi :=
  slerp_angularDistance_eq _ _ t (setFromEulerXYZ_normSq cur)
    (setFromEulerXYZ_normSq tgt) ht0 ht1 hnd

/-- Witness for c8_slerp_fraction_amended at the identity orientation,
a target yaw of pi, and half a parameter step. -/
theorem c8_slerp_fraction_amended_witness :
    ((0 : ℝ) ≤ 1 / 2 ∧ (1 / 2 : ℝ) ≤ 1 ∧
      machineEpsilon <
        1 - Quat.dot (setFromEulerXYZ ⟨0, 0, 0⟩) (setFromEulerXYZ ⟨0, Real.pi, 0⟩) *
          Quat.dot (setFromEulerXYZ ⟨0, 0, 0⟩) (setFromEulerXYZ ⟨0, Real.pi, 0⟩)) ∧
    (setFromEulerXYZ ⟨0, 0, 0⟩).angularDistance
        (interpolateEulerQuat ⟨0, 0, 0⟩ ⟨0, Real.pi, 0⟩ (1 / 2)) =
      (1 / 2) *
        (setFromEulerXYZ ⟨0, 0, 0⟩).angularDistance (setFromEulerXYZ ⟨0, Real.pi, 0⟩) := by
  have h1 : (0 : ℝ) ≤ 1 / 2 := by norm_num
  have h2 : (1 / 2 : ℝ) ≤ 1 := by norm_num
  have h3 : machineEpsilon <
      1 - Quat.dot (setFromEulerXYZ ⟨0, 0, 0⟩) (setFromEulerXYZ ⟨0, Real.pi, 0⟩) *
        Quat.dot (setFromEulerXYZ ⟨0, 0, 0⟩) (setFromEulerXYZ ⟨0, Real.pi, 0⟩) := by
    rw [setFromEulerXYZ_zero, setFromEulerXYZ_yaw_pi]
    norm_num [Quat.dot, machineEpsilon]
  exact ⟨⟨h1, h2, h3⟩,
    (c8_slerp_fraction_amended ⟨0, 0, 0⟩ ⟨0, Real.pi, 0⟩ (1 / 2) h1 h2 h3).1⟩
